import Mathlib

/-!
Shallow embedding of the audio-reactive particle visualizer's core
(voice-recording hook `use-voice.ts` and the audio-reactive particle hook).
Machine samples and audio levels are modelled as rationals, byte-magnitude
spectra as lists of naturals, and the stateful hooks as explicit state-passing
functions.  Each section names the source function it embeds.
-/

namespace VibeSpeak

/- ===================================================================
   WAV Encoder — src/apps/web/src/hooks/use-voice.ts, `encodeWav`
   =================================================================== -/

/-- Truncation toward zero of a rational, the effect of JavaScript `| 0`
on a value that fits in 32 bits (line 106 of use-voice.ts). -/
def truncToInt (q : ℚ) : ℤ := if q < 0 then ⌈q⌉ else ⌊q⌋

/-- Line 105: `Math.max(-1, Math.min(1, channels[i][offset]))`. -/
def clampSample (s : ℚ) : ℚ := max (-1) (min 1 s)

/-- Line 106: `sample = (0.5 + sample < 0 ? sample * 32768 : sample * 32767) | 0`.
JavaScript operator precedence parses the guard as `(0.5 + sample) < 0`,
so the threshold between the two scale factors is the clamped value -0.5. -/
def quantizeSample (s : ℚ) : ℤ :=
  let c := clampSample s
  if 1/2 + c < 0 then truncToInt (c * 32768) else truncToInt (c * 32767)

/-- Modelled from the spec's words (§4.5 quantization) for comparison with
`quantizeSample`: "clamp to [-1,1]; scale by 32768 for negative, 32767 for
non-negative, truncate toward zero". -/
def quantizeSampleSpec (s : ℚ) : ℤ :=
  let c := clampSample s
  if c < 0 then truncToInt (c * 32768) else truncToInt (c * 32767)

/-- A decoded PCM buffer as consumed by `encodeWav` (a Web Audio
`AudioBuffer`): channel count, frame count, sample rate, and per-channel
float sample data (`getChannelData(i)[offset]` is `channelData i offset`). -/
structure AudioBuffer where
  numberOfChannels : ℕ
  frameCount : ℕ
  sampleRate : ℕ
  channelData : ℕ → ℕ → ℚ

/-- Two little-endian bytes of a 16-bit unsigned value (`setUint16 _ _ true`). -/
def u16le (n : ℕ) : List ℕ := [n % 256, n / 256 % 256]

/-- Four little-endian bytes of a 32-bit unsigned value (`setUint32 _ _ true`). -/
def u32le (n : ℕ) : List ℕ :=
  [n % 256, n / 256 % 256, n / 65536 % 256, n / 16777216 % 256]

/-- Two little-endian bytes of a signed 16-bit value (`setInt16 _ _ true`),
two's complement. -/
def i16le (z : ℤ) : List ℕ := u16le (z % 65536).toNat

/-- The `data` section written by the while-loop of `encodeWav`
(lines 102-111): frames in order, channels interleaved within a frame,
each sample quantized and written as little-endian 16 bits. -/
def wavData (buf : AudioBuffer) : List ℕ :=
  (List.range buf.frameCount).flatMap fun offset =>
    (List.range buf.numberOfChannels).flatMap fun i =>
      i16le (quantizeSample (buf.channelData i offset))

/-- The 44 header bytes written by `encodeWav` (lines 69-95) before the
sample data: RIFF chunk, `fmt ` sub-chunk, `data` sub-chunk header.  The
byte lists appear in the order the source advances `pos`. -/
def wavHeader (buf : AudioBuffer) : List ℕ :=
  [82, 73, 70, 70]
    ++ u32le (36 + buf.frameCount * buf.numberOfChannels * 2)
    ++ [87, 65, 86, 69]
    ++ [102, 109, 116, 32]
    ++ u32le 16
    ++ u16le 1
    ++ u16le buf.numberOfChannels
    ++ u32le buf.sampleRate
    ++ u32le (buf.sampleRate * 2 * buf.numberOfChannels)
    ++ u16le (buf.numberOfChannels * 2)
    ++ u16le 16
    ++ [100, 97, 116, 97]
    ++ u32le (buf.frameCount * buf.numberOfChannels * 2)

/-- `encodeWav` (lines 51-114): the 44-byte header followed by the
interleaved quantized samples. -/
def encodeWav (buf : AudioBuffer) : List ℕ := wavHeader buf ++ wavData buf

/-- Little-endian 32-bit read at a byte offset (how a WAV reader decodes the
size fields). -/
def readU32le (bs : List ℕ) (pos : ℕ) : ℕ :=
  bs.getD pos 0 + 256 * bs.getD (pos + 1) 0 + 65536 * bs.getD (pos + 2) 0
    + 16777216 * bs.getD (pos + 3) 0

/- ===================================================================
   Parameter Mapper / Smoother — src/unnamed/part_005
   (`useAudioReactiveParticles`)
   =================================================================== -/

/-- The `AudioData` interface of part_005 (lines 3-11): one audio feature
frame, with the byte-magnitude spectrum as a list of naturals. -/
structure AudioData where
  amplitude : ℚ
  frequency : ℚ
  frequencyData : List ℕ
  bassLevel : ℚ
  midLevel : ℚ
  trebleLevel : ℚ
  isRecording : Bool
deriving DecidableEq

/-- The `ParticleParams` interface of part_005 (lines 13-20). -/
structure ParticleParams where
  noiseIntensity : ℚ
  pulseAmplitude : ℚ
  torusMode : Bool
  torusRadius : ℚ
  torusSpeed : ℚ
  torusMinorRadius : ℚ
deriving DecidableEq

/-- Initial base/audio parameter values (part_005 lines 35-52). -/
def initialParams : ParticleParams :=
  { noiseIntensity := 0.03
    pulseAmplitude := 0.02
    torusMode := false
    torusRadius := 1.0
    torusSpeed := 1.0
    torusMinorRadius := 0.3 }

/-- Line 29: `const lerp = (start, end, factor) => start + (end - start) * factor`. -/
def lerp (start finish factor : ℚ) : ℚ := start + (finish - start) * factor

/-- Line 83: `const smoothingFactor = 0.08`. -/
def smoothingFactor : ℚ := 0.08

/-- `updateSmoothParams` (lines 82-141): one smoothing tick, interpolating
every numeric field of the current params toward the target with
`smoothingFactor` and propagating `torusMode` directly from the target
(line 96).  The skip-if-unchanged check (lines 114-137) only throttles the
downstream state notification; the interpolated values themselves are as
computed here. -/
def updateSmoothParams (current target : ParticleParams) : ParticleParams :=
  { noiseIntensity := lerp current.noiseIntensity target.noiseIntensity smoothingFactor
    pulseAmplitude := lerp current.pulseAmplitude target.pulseAmplitude smoothingFactor
    torusMode := target.torusMode
    torusRadius := lerp current.torusRadius target.torusRadius smoothingFactor
    torusSpeed := lerp current.torusSpeed target.torusSpeed smoothingFactor
    torusMinorRadius := lerp current.torusMinorRadius target.torusMinorRadius smoothingFactor }

/-- N smoothing ticks against a fixed target (the per-frame animation loop,
lines 140-151, while the target does not change). -/
def smoothIter (target : ParticleParams) : ℕ → ParticleParams → ParticleParams
  | 0, current => current
  | n + 1, current => smoothIter target n (updateSmoothParams current target)

/-- N-fold application of `lerp` toward a fixed target on one coordinate. -/
def lerpIter (target f : ℚ) : ℕ → ℚ → ℚ
  | 0, c => c
  | n + 1, c => lerpIter target f n (lerp c target f)

/-- Line 311: `const subBassRange = Math.floor(frequencyBins * 0.02)`.
For the bin counts the hook produces (512 = fftSize 1024 / 2) the exact
rational floor agrees with the floating-point computation. -/
def subBassRange (bins : ℕ) : ℕ := bins * 2 / 100

/-- Lines 315-319: sum of the first `subBassRange` normalized bins, divided
by `subBassRange`. -/
def subBassLevel (fd : List ℕ) : ℚ :=
  (((fd.take (subBassRange fd.length)).map fun b => (b : ℚ) / 255).sum) /
    subBassRange fd.length

/-- Line 322: `const enhancedBass = Math.max(bassLevel, subBassLevel * 1.2)`. -/
def enhancedBass (ad : AudioData) : ℚ :=
  max ad.bassLevel (subBassLevel ad.frequencyData * 1.2)

/-- Lines 326-370: the audio-to-parameter mapping computed while audio
processing is active, producing the new target params from the base params
and the current frame. -/
def audioTargets (base : ParticleParams) (ad : AudioData) : ParticleParams :=
  { noiseIntensity := min 1.0 (base.noiseIntensity + ad.amplitude * 0.7 + ad.midLevel * 0.5)
    pulseAmplitude := min 0.6 (base.pulseAmplitude + enhancedBass ad * 0.6 + ad.amplitude * 0.2)
    torusMode := base.torusMode
    torusRadius := max 0.5 (min 2.5 (base.torusRadius + ad.trebleLevel * 1.0 + ad.amplitude * 0.3))
    torusSpeed := max 0.1 (min 4.0 (base.torusSpeed + ad.amplitude * 2.5 + enhancedBass ad * 0.8))
    torusMinorRadius := max 0.1 (min 0.9 (base.torusMinorRadius + ad.midLevel * 0.4 + ad.trebleLevel * 0.2)) }

/-- The `recordingPhase` state value (part_005 lines 62-64). -/
inductive RecordingPhase
  | idle
  | preRecordingLoading
  | recording
  | postRecordingLoading
deriving DecidableEq

/-- The mutable state read and written by one `processAudioData` call:
`baseParams`, `recordingPhase`, `loadingState.isLoading`,
`wasRecordingRef` and `targetParamsRef`. -/
structure MapperState where
  baseParams : ParticleParams
  recordingPhase : RecordingPhase
  loadingActive : Bool
  wasRecording : Bool
  targetParams : ParticleParams
deriving DecidableEq

/-- Which of the four exit paths of `processAudioData` (lines 215-378) a
call takes: the rising-edge transition into pre-recording loading
(lines 234-254), the falling-edge transition into post-recording loading
(lines 255-274), the early returns that pin the target to `baseParams`
(lines 277-295), or the audio mapping (lines 297-377). -/
inductive MapperAction
  | startTransition
  | stopTransition
  | pinToBase
  | mapAudio
deriving DecidableEq

/-- Control-flow skeleton of `processAudioData`: the branch conditions in
source order.  The rising-edge branch fires only from `idle` (line 236) and
the falling-edge branch only from `recording` (line 257); when their inner
guard fails, control falls through to the loading-phase check (line 277)
and then the recording-phase check (line 292), exactly as in the source. -/
def mapperAction (s : MapperState) (ad : AudioData) : MapperAction :=
  if s.wasRecording = false ∧ ad.isRecording = true ∧ s.recordingPhase = RecordingPhase.idle then
    MapperAction.startTransition
  else if s.wasRecording = true ∧ ad.isRecording = false ∧ s.recordingPhase = RecordingPhase.recording then
    MapperAction.stopTransition
  else if s.recordingPhase = RecordingPhase.preRecordingLoading ∨
      s.recordingPhase = RecordingPhase.postRecordingLoading ∨ s.loadingActive = true then
    MapperAction.pinToBase
  else if ¬s.recordingPhase = RecordingPhase.recording ∨ ad.isRecording = false then
    MapperAction.pinToBase
  else
    MapperAction.mapAudio

/-- One `processAudioData` call as a state transformer.  The transition
branches start `simulateLoading` (which synchronously sets
`baseParams.torusMode := true`, line 163, and `loadingState.isLoading :=
true`, lines 165-169) and return without touching `targetParamsRef`; the
pinning branches set the target to `baseParams`; the mapping branch sets
the target from the audio features. -/
def processAudioData (s : MapperState) (ad : AudioData) : MapperState :=
  match mapperAction s ad with
  | MapperAction.startTransition =>
      { s with recordingPhase := RecordingPhase.preRecordingLoading
               loadingActive := true
               baseParams := { s.baseParams with torusMode := true }
               wasRecording := true }
  | MapperAction.stopTransition =>
      { s with recordingPhase := RecordingPhase.postRecordingLoading
               loadingActive := true
               baseParams := { s.baseParams with torusMode := true } }
  | MapperAction.pinToBase => { s with targetParams := s.baseParams }
  | MapperAction.mapAudio => { s with targetParams := audioTargets s.baseParams ad }

/-- A concrete state with an independently triggered loading sequence
active (`triggerLoading`, lines 408-415) while the phase is still `idle`
and the target differs from the base params. -/
def loadingIdleState : MapperState :=
  { baseParams := initialParams
    recordingPhase := RecordingPhase.idle
    loadingActive := true
    wasRecording := false
    targetParams := { initialParams with noiseIntensity := 1 } }

/-- A concrete frame with the recording flag raised. -/
def risingFrame : AudioData :=
  { amplitude := 0
    frequency := 0
    frequencyData := List.replicate 512 0
    bassLevel := 0
    midLevel := 0
    trebleLevel := 0
    isRecording := true }

/-- A concrete state sitting in the pre-recording loading phase. -/
def preLoadingState : MapperState :=
  { baseParams := { initialParams with torusMode := true }
    recordingPhase := RecordingPhase.preRecordingLoading
    loadingActive := true
    wasRecording := true
    targetParams := initialParams }

/-- A concrete state in the recording phase with no loading active. -/
def recordingState : MapperState :=
  { baseParams := initialParams
    recordingPhase := RecordingPhase.recording
    loadingActive := false
    wasRecording := true
    targetParams := initialParams }

/- ===================================================================
   Volume & Voice-Activity Detector — use-voice.ts, `analyzeAudio`
   (lines 345-376)
   =================================================================== -/

/-- Line 144: `const historyLength = 10`. -/
def historyLength : ℕ := 10

/-- Line 143: `const voiceThreshold = 30`. -/
def voiceThreshold : ℚ := 30

/-- Lines 366-369: push the current volume, then `shift()` the oldest
entry if the history exceeds `historyLength`. -/
def pushVolume (h : List ℚ) (v : ℚ) : List ℚ :=
  let h2 := h ++ [v]
  if historyLength < h2.length then h2.tail else h2

/-- Lines 372-374: arithmetic mean of the volume history. -/
def meanVolume (h : List ℚ) : ℚ := h.sum / h.length

/-- Lines 366-376: one VAD tick — update the rolling history, then set the
voice flag to `averageVolume > voiceThreshold`. -/
def vadTick (h : List ℚ) (v : ℚ) : List ℚ × Bool :=
  let h2 := pushVolume h v
  (h2, decide (voiceThreshold < meanVolume h2))

/- ===================================================================
   Spectral Analyzer — use-voice.ts, `analyzeAudio`
   (dominant frequency, lines 378-388; band levels, lines 391-417)
   =================================================================== -/

/-- The `forEach` loop of lines 379-386: thread `(maxValue, maxIndex)`
through the spectrum, updating only on a strict increase. -/
def domLoop : List ℕ → ℕ → ℕ × ℕ → ℕ × ℕ
  | [], _, acc => acc
  | v :: rest, idx, (mv, mi) =>
      if mv < v then domLoop rest (idx + 1) (v, idx) else domLoop rest (idx + 1) (mv, mi)

/-- `(maxValue, maxIndex)` after scanning the whole spectrum, starting
from `(0, 0)` (lines 379-380). -/
def domScan (s : List ℕ) : ℕ × ℕ := domLoop s 0 (0, 0)

/-- Index of the dominant spectral bin. -/
def domIndex (s : List ℕ) : ℕ := (domScan s).2

/-- Line 388: `frequency = (maxIndex * sampleRate) / fftSize`. -/
def dominantFrequency (s : List ℕ) (sampleRate : ℚ) (fftSize : ℕ) : ℚ :=
  domIndex s * sampleRate / fftSize

/-- Line 391: `bassEnd = Math.floor((250 * bufferLength) / (sampleRate / 2))`. -/
def bassEnd (len : ℕ) (sampleRate : ℚ) : ℤ := ⌊(250 * len : ℚ) / (sampleRate / 2)⌋

/-- Line 392: `midEnd = Math.floor((4000 * bufferLength) / (sampleRate / 2))`. -/
def midEnd (len : ℕ) (sampleRate : ℚ) : ℤ := ⌊(4000 * len : ℚ) / (sampleRate / 2)⌋

/-- Indices the loop of lines 402-413 assigns to the bass band
(`i <= bassEnd`). -/
def bassIdxs (len : ℕ) (sr : ℚ) : List ℕ :=
  (List.range len).filter fun i => (i : ℤ) ≤ bassEnd len sr

/-- Indices assigned to the mid band (`!(i <= bassEnd) && i <= midEnd`). -/
def midIdxs (len : ℕ) (sr : ℚ) : List ℕ :=
  (List.range len).filter fun i => bassEnd len sr < (i : ℤ) ∧ (i : ℤ) ≤ midEnd len sr

/-- Indices assigned to the treble band (everything else). -/
def trebleIdxs (len : ℕ) (sr : ℚ) : List ℕ :=
  (List.range len).filter fun i => bassEnd len sr < (i : ℤ) ∧ midEnd len sr < (i : ℤ)

/-- Lines 415-417: `count > 0 ? sum / count / 255 : 0` for one band. -/
def bandAvg (s : List ℕ) (idxs : List ℕ) : ℚ :=
  if 0 < idxs.length then ((idxs.map fun i => (s.getD i 0 : ℚ)).sum) / idxs.length / 255
  else 0

/-- Line 415: normalized mean magnitude of the bass band. -/
def bassLevel (s : List ℕ) (sr : ℚ) : ℚ := bandAvg s (bassIdxs s.length sr)

/-- Line 416: normalized mean magnitude of the mid band. -/
def midLevel (s : List ℕ) (sr : ℚ) : ℚ := bandAvg s (midIdxs s.length sr)

/-- Line 417: normalized mean magnitude of the treble band. -/
def trebleLevel (s : List ℕ) (sr : ℚ) : ℚ := bandAvg s (trebleIdxs s.length sr)

/- ===================================================================
   Recording Lifecycle Controller — use-voice.ts, `stopRecording`
   (lines 711-809) and `mediaRecorder.onstop` (lines 643-658)
   =================================================================== -/

/-- `MediaRecorder.state` values relevant to `stopRecording`. -/
inductive RecorderState
  | inactive
  | recording
  | paused
deriving DecidableEq

/-- The externally visible recording state touched by `stopRecording`:
`isRecording`, `recordedAudio`, `error`, the recorder handle's state, the
captured non-empty chunks (`recordedChunksRef`), and the volume/VAD state
that is reset synchronously.  Chunks and the assembled blob are byte
lists. -/
structure VoiceState where
  isRecording : Bool
  recordedAudio : Option (List ℕ)
  error : Option String
  recorderState : RecorderState
  chunks : List (List ℕ)
  currentVolume : ℚ
  isVoiceDetected : Bool
  volumeHistory : List ℚ
deriving DecidableEq

/-- The `mediaRecorder.onstop` handler (lines 643-658): with at least one
captured chunk, assemble the blob from all chunks; with zero chunks, leave
`recordedAudio` unchanged and report the no-audio error. -/
def onStopHandler (s : VoiceState) : VoiceState :=
  if 0 < s.chunks.length then { s with recordedAudio := some s.chunks.flatten }
  else { s with error := some "No audio data was recorded" }

/-- `stopRecording` (lines 711-809) joined with the `onstop` callback it
triggers: clear `isRecording` first (line 723); if the recorder is
recording or paused, stop it (firing `onstop`, lines 729-735); then reset
the volume, VAD flag and history synchronously (lines 751-753). -/
def stopRecording (s : VoiceState) : VoiceState :=
  let s1 : VoiceState := { s with isRecording := false }
  let s2 : VoiceState :=
    if s1.recorderState = RecorderState.recording ∨ s1.recorderState = RecorderState.paused then
      onStopHandler { s1 with recorderState := RecorderState.inactive }
    else s1
  { s2 with currentVolume := 0, isVoiceDetected := false, volumeHistory := [] }

/-- A concrete active session in which no non-empty chunk was ever
delivered. -/
def emptyChunksSession : VoiceState :=
  { isRecording := true
    recordedAudio := none
    error := none
    recorderState := RecorderState.recording
    chunks := []
    currentVolume := 5
    isVoiceDetected := false
    volumeHistory := [1, 2] }

lemma clampSample_le_one (s : ℚ) : clampSample s ≤ 1 :=
  max_le (by norm_num) (min_le_left _ _)

lemma neg_one_le_clampSample (s : ℚ) : -1 ≤ clampSample s := le_max_left _ _

lemma truncToInt_bounds {q : ℚ} {a b : ℤ} (ha : (a : ℚ) ≤ q) (hb : q ≤ b) :
    a ≤ truncToInt q ∧ truncToInt q ≤ b := by
  unfold truncToInt
  split
  · refine ⟨le_trans ?_ (Int.floor_le_ceil q), Int.ceil_le.mpr hb⟩
    exact Int.le_floor.mpr ha
  · exact ⟨Int.le_floor.mpr ha, le_trans (Int.floor_le_ceil q) (Int.ceil_le.mpr hb)⟩

/-- C1 (amended): in the WAV quantization step the clamped sample is scaled
by 32768 exactly when it is strictly below -1/2 (the guard
`0.5 + sample < 0` of line 106 compares the clamped sample against -0.5,
not against 0), by 32767 otherwise, and the truncated result always fits a
signed 16-bit sample. -/
theorem C1_wav_quantization_amended (s : ℚ) :
    quantizeSample s =
      (if clampSample s < -(1/2) then truncToInt (clampSample s * 32768)
       else truncToInt (clampSample s * 32767)) ∧
    -32768 ≤ quantizeSample s ∧ quantizeSample s ≤ 32767 := by
  have hc1 : -1 ≤ clampSample s := neg_one_le_clampSample s
  have hc2 : clampSample s ≤ 1 := clampSample_le_one s
  have hcond : (1/2 + clampSample s < 0) ↔ clampSample s < -(1/2) :=
    ⟨fun h => by linarith, fun h => by linarith⟩
  constructor
  · simp only [quantizeSample]
    exact if_congr hcond rfl rfl
  · simp only [quantizeSample]
    split
    · rename_i h
      have hbnd := truncToInt_bounds (q := clampSample s * 32768)
        (a := -32768) (b := 32767) (by push_cast; nlinarith) (by push_cast; nlinarith)
      exact hbnd
    · rename_i h
      have hbnd := truncToInt_bounds (q := clampSample s * 32767)
        (a := -32768) (b := 32767) (by push_cast; nlinarith) (by push_cast; nlinarith)
      exact hbnd

/-- C1 counterexample to the claim as stated: at input -1/4 (clamped value
negative) the encoder scales by 32767 and outputs -8191, while the claimed
rule "scale by 32768 for negative" would output -8192. -/
theorem C1_wav_quantization_counterexample :
    quantizeSample (-(1/4)) = -8191 ∧ quantizeSampleSpec (-(1/4)) = -8192 ∧
    quantizeSample (-(1/4)) ≠ quantizeSampleSpec (-(1/4)) := by
  have h1 : quantizeSample (-(1/4)) = -8191 := by
    simp only [quantizeSample, clampSample, truncToInt, min_def, max_def]
    norm_num
    rw [Int.ceil_eq_iff] <;> norm_num
  have h2 : quantizeSampleSpec (-(1/4)) = -8192 := by
    simp only [quantizeSampleSpec, clampSample, truncToInt, min_def, max_def]
    norm_num
    rw [Int.ceil_eq_iff] <;> norm_num
  exact ⟨h1, h2, by rw [h1, h2]; decide⟩

lemma flatMap_length_const {α β : Type} (l : List α) (f : α → List β) (k : ℕ)
    (h : ∀ a ∈ l, (f a).length = k) : (l.flatMap f).length = l.length * k := by
  induction l with
  | nil => simp
  | cons a t ih =>
    simp only [List.flatMap_cons, List.length_append, List.length_cons]
    rw [h a (by simp), ih (fun x hx => h x (by simp [hx]))]
    ring

lemma i16le_length (z : ℤ) : (i16le z).length = 2 := rfl

lemma wavData_length (buf : AudioBuffer) :
    (wavData buf).length = buf.frameCount * buf.numberOfChannels * 2 := by
  unfold wavData
  rw [flatMap_length_const _ _ (buf.numberOfChannels * 2)]
  · rw [List.length_range, Nat.mul_assoc]
  · intro off hoff
    rw [flatMap_length_const _ _ 2]
    · rw [List.length_range]
    · intro i hi
      exact i16le_length _

lemma wavHeader_length (buf : AudioBuffer) : (wavHeader buf).length = 44 := by
  simp [wavHeader, u32le, u16le]

lemma readU32le_wavHeader_4 (buf : AudioBuffer) :
    readU32le (wavHeader buf) 4 =
      (36 + buf.frameCount * buf.numberOfChannels * 2) % 4294967296 := by
  simp only [wavHeader, u32le, u16le, List.cons_append, List.nil_append]
  simp only [readU32le, List.getD_cons_succ, List.getD_cons_zero]
  omega

lemma readU32le_wavHeader_40 (buf : AudioBuffer) :
    readU32le (wavHeader buf) 40 =
      (buf.frameCount * buf.numberOfChannels * 2) % 4294967296 := by
  simp only [wavHeader, u32le, u16le, List.cons_append, List.nil_append]
  simp only [readU32le, List.getD_cons_succ, List.getD_cons_zero]
  omega

lemma readU32le_encodeWav_eq (buf : AudioBuffer) (p : ℕ) (hp : p + 3 < 44) :
    readU32le (encodeWav buf) p = readU32le (wavHeader buf) p := by
  unfold readU32le encodeWav
  rw [List.getD_append _ _ _ _ (by rw [wavHeader_length]; omega),
    List.getD_append _ _ _ _ (by rw [wavHeader_length]; omega),
    List.getD_append _ _ _ _ (by rw [wavHeader_length]; omega),
    List.getD_append _ _ _ _ (by rw [wavHeader_length]; omega)]

/-- C10: for a buffer of C channels and N frames, `encodeWav` outputs
exactly 44 + N*C*2 bytes; the RIFF size field (offset 4) reads back as
36 + N*C*2 and the data sub-chunk size field (offset 40) as N*C*2; the
bytes after the 44-byte header are exactly the N*C interleaved samples,
each quantized to two little-endian bytes. -/
theorem C10_wav_byte_layout (buf : AudioBuffer)
    (hsize : 36 + buf.frameCount * buf.numberOfChannels * 2 < 4294967296) :
    (encodeWav buf).length = 44 + buf.frameCount * buf.numberOfChannels * 2 ∧
    readU32le (encodeWav buf) 4 = 36 + buf.frameCount * buf.numberOfChannels * 2 ∧
    readU32le (encodeWav buf) 40 = buf.frameCount * buf.numberOfChannels * 2 ∧
    (encodeWav buf).drop 44 = wavData buf ∧
    (wavData buf).length = buf.frameCount * buf.numberOfChannels * 2 ∧
    (∀ off i, (i16le (quantizeSample (buf.channelData i off))).length = 2) := by
  refine ⟨?_, ?_, ?_, ?_, wavData_length buf, fun off i => rfl⟩
  · rw [encodeWav, List.length_append, wavHeader_length, wavData_length]
  · rw [readU32le_encodeWav_eq buf 4 (by omega), readU32le_wavHeader_4]
    omega
  · rw [readU32le_encodeWav_eq buf 40 (by omega), readU32le_wavHeader_40]
    omega
  · rw [encodeWav, ← wavHeader_length buf, List.drop_left]

lemma lerp_sub (c t f : ℚ) : lerp c t f - t = (c - t) * (1 - f) := by
  unfold lerp; ring

lemma lerpIter_bound (t f : ℚ) (hf0 : 0 ≤ f) (hf1 : f ≤ 1) :
    ∀ (n : ℕ) (c : ℚ), |lerpIter t f n c - t| ≤ |c - t| * (1 - f) ^ n := by
  intro n
  induction n with
  | zero => intro c; simp [lerpIter]
  | succ n ih =>
    intro c
    have h1 : lerpIter t f (n + 1) c = lerpIter t f n (lerp c t f) := rfl
    rw [h1]
    refine le_trans (ih (lerp c t f)) (le_of_eq ?_)
    rw [lerp_sub, abs_mul, abs_of_nonneg (by linarith : (0:ℚ) ≤ 1 - f)]
    ring

lemma smoothIter_noiseIntensity (t : ParticleParams) :
    ∀ (n : ℕ) (c : ParticleParams),
      (smoothIter t n c).noiseIntensity =
        lerpIter t.noiseIntensity smoothingFactor n c.noiseIntensity := by
  intro n
  induction n with
  | zero => intro c; rfl
  | succ n ih => intro c; exact ih (updateSmoothParams c t)

lemma smoothIter_pulseAmplitude (t : ParticleParams) :
    ∀ (n : ℕ) (c : ParticleParams),
      (smoothIter t n c).pulseAmplitude =
        lerpIter t.pulseAmplitude smoothingFactor n c.pulseAmplitude := by
  intro n
  induction n with
  | zero => intro c; rfl
  | succ n ih => intro c; exact ih (updateSmoothParams c t)

lemma smoothIter_torusRadius (t : ParticleParams) :
    ∀ (n : ℕ) (c : ParticleParams),
      (smoothIter t n c).torusRadius =
        lerpIter t.torusRadius smoothingFactor n c.torusRadius := by
  intro n
  induction n with
  | zero => intro c; rfl
  | succ n ih => intro c; exact ih (updateSmoothParams c t)

lemma smoothIter_torusSpeed (t : ParticleParams) :
    ∀ (n : ℕ) (c : ParticleParams),
      (smoothIter t n c).torusSpeed =
        lerpIter t.torusSpeed smoothingFactor n c.torusSpeed := by
  intro n
  induction n with
  | zero => intro c; rfl
  | succ n ih => intro c; exact ih (updateSmoothParams c t)

lemma smoothIter_torusMinorRadius (t : ParticleParams) :
    ∀ (n : ℕ) (c : ParticleParams),
      (smoothIter t n c).torusMinorRadius =
        lerpIter t.torusMinorRadius smoothingFactor n c.torusMinorRadius := by
  intro n
  induction n with
  | zero => intro c; rfl
  | succ n ih => intro c; exact ih (updateSmoothParams c t)

/-- C2: iterating the per-tick smoothing update `current ← current +
(target − current) × smoothingFactor` N times on each numeric
ParticleParams field satisfies
`|current_N − T| ≤ |current_0 − T| × (1 − f)^N` with f the smoothing
factor in use (0.08). -/
theorem C2_smoothing_geometric_convergence (target current : ParticleParams) (N : ℕ) :
    |(smoothIter target N current).noiseIntensity - target.noiseIntensity| ≤
      |current.noiseIntensity - target.noiseIntensity| * (1 - smoothingFactor) ^ N ∧
    |(smoothIter target N current).pulseAmplitude - target.pulseAmplitude| ≤
      |current.pulseAmplitude - target.pulseAmplitude| * (1 - smoothingFactor) ^ N ∧
    |(smoothIter target N current).torusRadius - target.torusRadius| ≤
      |current.torusRadius - target.torusRadius| * (1 - smoothingFactor) ^ N ∧
    |(smoothIter target N current).torusSpeed - target.torusSpeed| ≤
      |current.torusSpeed - target.torusSpeed| * (1 - smoothingFactor) ^ N ∧
    |(smoothIter target N current).torusMinorRadius - target.torusMinorRadius| ≤
      |current.torusMinorRadius - target.torusMinorRadius| * (1 - smoothingFactor) ^ N := by
  have hf0 : (0:ℚ) ≤ smoothingFactor := by norm_num [smoothingFactor]
  have hf1 : smoothingFactor ≤ 1 := by norm_num [smoothingFactor]
  refine ⟨?_, ?_, ?_, ?_, ?_⟩
  · rw [smoothIter_noiseIntensity]
    exact lerpIter_bound _ _ hf0 hf1 N _
  · rw [smoothIter_pulseAmplitude]
    exact lerpIter_bound _ _ hf0 hf1 N _
  · rw [smoothIter_torusRadius]
    exact lerpIter_bound _ _ hf0 hf1 N _
  · rw [smoothIter_torusSpeed]
    exact lerpIter_bound _ _ hf0 hf1 N _
  · rw [smoothIter_torusMinorRadius]
    exact lerpIter_bound _ _ hf0 hf1 N _

/-- C3: while the audio-to-parameter mapping is active, the emitted targets
obey every specified clamp regardless of how extreme the feature values
are: noiseIntensity is `min 1 (base + amp*0.7 + mid*0.5)`, pulseAmplitude
is bounded by 0.6, torusRadius lies in [0.5, 2.5], torusSpeed equals
`clamp(base + amp*2.5 + enhancedBass*0.8, 0.1, 4.0)` and lies in its
bounds, torusMinorRadius lies in [0.1, 0.9], and
`enhancedBass = max bassLevel (subBass * 1.2)`.  The frame length
hypothesis is the AudioFeatureFrame well-formedness condition (spectrum
length = fftSize/2 = 512). -/
theorem C3_audio_targets_clamped (base : ParticleParams) (ad : AudioData)
    (hlen : ad.frequencyData.length = 512) :
    (audioTargets base ad).noiseIntensity =
      min 1.0 (base.noiseIntensity + ad.amplitude * 0.7 + ad.midLevel * 0.5) ∧
    (audioTargets base ad).noiseIntensity ≤ 1.0 ∧
    (audioTargets base ad).pulseAmplitude ≤ 0.6 ∧
    0.5 ≤ (audioTargets base ad).torusRadius ∧
    (audioTargets base ad).torusRadius ≤ 2.5 ∧
    (audioTargets base ad).torusSpeed =
      max 0.1 (min 4.0 (base.torusSpeed + ad.amplitude * 2.5 + enhancedBass ad * 0.8)) ∧
    0.1 ≤ (audioTargets base ad).torusSpeed ∧
    (audioTargets base ad).torusSpeed ≤ 4.0 ∧
    0.1 ≤ (audioTargets base ad).torusMinorRadius ∧
    (audioTargets base ad).torusMinorRadius ≤ 0.9 ∧
    enhancedBass ad = max ad.bassLevel (subBassLevel ad.frequencyData * 1.2) :=
  ⟨rfl, min_le_left _ _, min_le_left _ _, le_max_left _ _,
    max_le (by norm_num) (min_le_left _ _), rfl, le_max_left _ _,
    max_le (by norm_num) (min_le_left _ _), le_max_left _ _,
    max_le (by norm_num) (min_le_left _ _), rfl⟩

/-- Witness for C3 at a concrete 512-bin frame. -/
theorem C3_audio_targets_clamped_witness :
    risingFrame.frequencyData.length = 512 ∧
    (audioTargets initialParams risingFrame).noiseIntensity ≤ 1.0 ∧
    (audioTargets initialParams risingFrame).torusSpeed ≤ 4.0 := by
  have hlen : risingFrame.frequencyData.length = 512 := by
    show (List.replicate 512 0).length = 512
    rw [List.length_replicate]
  exact ⟨hlen, (C3_audio_targets_clamped initialParams risingFrame hlen).2.1,
    (C3_audio_targets_clamped initialParams risingFrame hlen).2.2.2.2.2.2.2.1⟩

set_option maxRecDepth 4000 in
/-- C4 (amended): audio features are mapped to the target exactly when the
phase is Recording, the live flag is up and no LoadingState is active; in
either Loading phase the target is pinned to baseParams; while an
independent LoadingState is active the target is pinned to baseParams
except on the call that itself performs the rising-edge or falling-edge
phase transition, which returns leaving the target unchanged. -/
theorem C4_loading_gate_amended (s : MapperState) (ad : AudioData) :
    (mapperAction s ad = MapperAction.mapAudio ↔
      (s.recordingPhase = RecordingPhase.recording ∧ ad.isRecording = true ∧
        s.loadingActive = false)) ∧
    ((s.recordingPhase = RecordingPhase.preRecordingLoading ∨
        s.recordingPhase = RecordingPhase.postRecordingLoading) →
      (processAudioData s ad).targetParams = s.baseParams) ∧
    (s.loadingActive = true →
      mapperAction s ad = MapperAction.startTransition ∨
      mapperAction s ad = MapperAction.stopTransition ∨
      (processAudioData s ad).targetParams = s.baseParams) ∧
    ((mapperAction s ad = MapperAction.startTransition ∨
        mapperAction s ad = MapperAction.stopTransition) →
      (processAudioData s ad).targetParams = s.targetParams) := by
  obtain ⟨base, phase, loading, was, target⟩ := s
  cases phase <;> cases loading <;> cases was <;> cases hr : ad.isRecording <;>
    simp only [mapperAction, processAudioData] <;> simp [hr]

/-- Witness for C4 (amended) in the pre-recording loading phase. -/
theorem C4_loading_gate_amended_witness :
    (processAudioData preLoadingState risingFrame).targetParams =
      preLoadingState.baseParams :=
  (C4_loading_gate_amended preLoadingState risingFrame).2.1 (Or.inl rfl)

/-- C4 counterexample to the claim as stated: with an independent loading
sequence active while the phase is still idle, a frame with the recording
flag up takes the rising-edge transition branch, which returns without
pinning the target to baseParams — the target keeps its previous value. -/
theorem C4_loading_gate_counterexample :
    loadingIdleState.loadingActive = true ∧
    (processAudioData loadingIdleState risingFrame).targetParams ≠
      loadingIdleState.baseParams ∧
    (processAudioData loadingIdleState risingFrame).targetParams ≠
      (processAudioData loadingIdleState risingFrame).baseParams := by
  have hact : mapperAction loadingIdleState risingFrame = MapperAction.startTransition := by
    decide
  have hres : processAudioData loadingIdleState risingFrame =
      { loadingIdleState with
          recordingPhase := RecordingPhase.preRecordingLoading
          loadingActive := true
          baseParams := { loadingIdleState.baseParams with torusMode := true }
          wasRecording := true } := by
    unfold processAudioData
    rw [hact]
  refine ⟨rfl, ?_, ?_⟩
  · rw [hres]
    intro h
    have hni := congrArg ParticleParams.noiseIntensity h
    simp [loadingIdleState, initialParams] at hni
    norm_num at hni
  · rw [hres]
    intro h
    have hni := congrArg ParticleParams.noiseIntensity h
    simp [loadingIdleState, initialParams] at hni
    norm_num at hni

/-- C9: when `processAudioData` maps audio features to the target (the
mapAudio path), the emitted torusMode target equals `base.torusMode`, and
the call leaves `baseParams` — whose torusMode only the loading-phase
machinery rewrites — unchanged. -/
theorem C9_torusMode_unchanged_by_audio (s : MapperState) (ad : AudioData)
    (h : mapperAction s ad = MapperAction.mapAudio) :
    (processAudioData s ad).targetParams.torusMode = s.baseParams.torusMode ∧
    (processAudioData s ad).baseParams = s.baseParams := by
  unfold processAudioData
  rw [h]
  exact ⟨rfl, rfl⟩

/-- Witness for C9 in the recording phase with the live flag up. -/
theorem C9_torusMode_unchanged_by_audio_witness :
    mapperAction recordingState risingFrame = MapperAction.mapAudio ∧
    (processAudioData recordingState risingFrame).targetParams.torusMode =
      recordingState.baseParams.torusMode := by
  have h : mapperAction recordingState risingFrame = MapperAction.mapAudio := by
    decide
  exact ⟨h, (C9_torusMode_unchanged_by_audio recordingState risingFrame h).1⟩

/-- Witness for C10 at a concrete two-frame mono buffer. -/
theorem C10_wav_byte_layout_witness :
    36 + 2 * 1 * 2 < 4294967296 ∧
    (encodeWav (AudioBuffer.mk 1 2 8000 (fun _ _ => 0))).length = 44 + 2 * 1 * 2 ∧
    readU32le (encodeWav (AudioBuffer.mk 1 2 8000 (fun _ _ => 0))) 40 = 2 * 1 * 2 :=
  ⟨by norm_num,
   (C10_wav_byte_layout (AudioBuffer.mk 1 2 8000 (fun _ _ => 0)) (by norm_num)).1,
   (C10_wav_byte_layout (AudioBuffer.mk 1 2 8000 (fun _ _ => 0)) (by norm_num)).2.2.1⟩

lemma getD_le_255 {s : List ℕ} (hb : ∀ b ∈ s, b ≤ 255) (i : ℕ) : s.getD i 0 ≤ 255 := by
  rcases Nat.lt_or_ge i s.length with h | h
  · rw [List.getD_eq_getElem s 0 h]
    exact hb _ (List.getElem_mem h)
  · rw [List.getD_eq_default s 0 h]
    norm_num

lemma getD_eq_zero {s : List ℕ} (h0 : ∀ b ∈ s, b = 0) (i : ℕ) : s.getD i 0 = 0 := by
  rcases Nat.lt_or_ge i s.length with h | h
  · rw [List.getD_eq_getElem s 0 h]
    exact h0 _ (List.getElem_mem h)
  · exact List.getD_eq_default s 0 h

lemma bandAvg_nonneg (s idxs : List ℕ) : 0 ≤ bandAvg s idxs := by
  unfold bandAvg
  split
  · refine div_nonneg (div_nonneg ?_ (by positivity)) (by norm_num)
    refine List.sum_nonneg ?_
    intro x hx
    obtain ⟨i, _, rfl⟩ := List.mem_map.mp hx
    positivity
  · exact le_refl 0

lemma bandAvg_le_one (s idxs : List ℕ) (hb : ∀ b ∈ s, b ≤ 255) :
    bandAvg s idxs ≤ 1 := by
  unfold bandAvg
  split
  · rename_i hpos
    rw [div_div]
    refine div_le_one_of_le₀ ?_ (by positivity)
    have hsum : ((idxs.map fun i => (s.getD i 0 : ℚ)).sum) ≤
        (idxs.map fun i => (s.getD i 0 : ℚ)).length • (255 : ℚ) := by
      refine List.sum_le_card_nsmul _ _ ?_
      intro x hx
      obtain ⟨i, _, rfl⟩ := List.mem_map.mp hx
      exact_mod_cast getD_le_255 hb i
    rw [List.length_map, nsmul_eq_mul] at hsum
    linarith
  · norm_num

lemma bandAvg_of_zero (s idxs : List ℕ) (h0 : ∀ b ∈ s, b = 0) :
    bandAvg s idxs = 0 := by
  unfold bandAvg
  split
  · have hz : (idxs.map fun i => (s.getD i 0 : ℚ)) = idxs.map fun _ => (0 : ℚ) := by
      refine List.map_congr_left ?_
      intro i _
      rw [getD_eq_zero h0 i]
      norm_num
    rw [hz]
    simp
  · rfl

/-- C6: for every byte-magnitude spectrum the three band levels lie in
[0,1]; a band with zero bins yields level 0 (not NaN); and on an all-zero
spectrum all three levels are exactly 0. -/
theorem C6_band_levels_bounded (s : List ℕ) (sr : ℚ) (hb : ∀ b ∈ s, b ≤ 255) :
    (0 ≤ bassLevel s sr ∧ bassLevel s sr ≤ 1) ∧
    (0 ≤ midLevel s sr ∧ midLevel s sr ≤ 1) ∧
    (0 ≤ trebleLevel s sr ∧ trebleLevel s sr ≤ 1) ∧
    ((bassIdxs s.length sr).length = 0 → bassLevel s sr = 0) ∧
    ((midIdxs s.length sr).length = 0 → midLevel s sr = 0) ∧
    ((trebleIdxs s.length sr).length = 0 → trebleLevel s sr = 0) ∧
    ((∀ b ∈ s, b = 0) →
      bassLevel s sr = 0 ∧ midLevel s sr = 0 ∧ trebleLevel s sr = 0) := by
  refine ⟨⟨bandAvg_nonneg _ _, bandAvg_le_one _ _ hb⟩,
    ⟨bandAvg_nonneg _ _, bandAvg_le_one _ _ hb⟩,
    ⟨bandAvg_nonneg _ _, bandAvg_le_one _ _ hb⟩, ?_, ?_, ?_, ?_⟩
  · intro hz
    unfold bassLevel bandAvg
    rw [if_neg (by omega)]
  · intro hz
    unfold midLevel bandAvg
    rw [if_neg (by omega)]
  · intro hz
    unfold trebleLevel bandAvg
    rw [if_neg (by omega)]
  · intro h0
    exact ⟨bandAvg_of_zero _ _ h0, bandAvg_of_zero _ _ h0, bandAvg_of_zero _ _ h0⟩

/-- Witness for C6 at a concrete four-bin all-zero spectrum. -/
theorem C6_band_levels_bounded_witness :
    (∀ b ∈ ([0, 0, 0, 0] : List ℕ), b ≤ 255) ∧
    bassLevel [0, 0, 0, 0] 48000 = 0 ∧ trebleLevel [0, 0, 0, 0] 48000 = 0 := by
  have hb : ∀ b ∈ ([0, 0, 0, 0] : List ℕ), b ≤ 255 := by decide
  have h := (C6_band_levels_bounded [0, 0, 0, 0] 48000 hb).2.2.2.2.2.2 (by decide)
  exact ⟨hb, h.1, h.2.2⟩

/-- C5: one VAD tick on a history of at most 10 samples sets the voice
flag exactly when the mean of the updated history strictly exceeds 30, and
the updated history is the strict insertion-ordered sliding window of the
at most 10 most recent samples (the suffix of `h ++ [v]`). -/
theorem C5_vad_mean_threshold (h : List ℚ) (v : ℚ) (hlen : h.length ≤ 10) :
    ((vadTick h v).2 = true ↔ (30 : ℚ) < meanVolume (vadTick h v).1) ∧
    (vadTick h v).1 = (h ++ [v]).drop (h.length + 1 - 10) ∧
    (vadTick h v).1.length ≤ 10 := by
  have hwin : pushVolume h v = (h ++ [v]).drop (h.length + 1 - 10) := by
    unfold pushVolume historyLength
    rcases Nat.lt_or_ge h.length 10 with hlt | hge
    · rw [if_neg (by simp only [List.length_append, List.length_cons, List.length_nil]; omega)]
      have hz : h.length + 1 - 10 = 0 := by omega
      rw [hz, List.drop_zero]
    · have h10 : h.length = 10 := le_antisymm hlen hge
      rw [if_pos (by simp only [List.length_append, List.length_cons, List.length_nil]; omega)]
      rw [h10, ← List.drop_one]
  refine ⟨?_, hwin, ?_⟩
  · show decide (voiceThreshold < meanVolume (pushVolume h v)) = true ↔ _
    rw [decide_eq_true_iff]
    exact Iff.rfl
  · show (pushVolume h v).length ≤ 10
    rw [hwin, List.length_drop, List.length_append]
    simp only [List.length_cons, List.length_nil]
    omega

/-- Witness for C5: history [40, 40], new volume 40 — mean 40 > 30, flag
set. -/
theorem C5_vad_mean_threshold_witness :
    ([40, 40] : List ℚ).length ≤ 10 ∧ (vadTick [40, 40] 40).2 = true := by
  have t := C5_vad_mean_threshold [40, 40] 40 (by norm_num)
  refine ⟨by norm_num, t.1.mpr ?_⟩
  rw [t.2.1]
  norm_num [meanVolume]

lemma le_foldl_max (l : List ℕ) : ∀ a : ℕ, a ≤ l.foldl max a := by
  induction l with
  | nil => intro a; exact le_refl a
  | cons v t ih =>
    intro a
    exact le_trans (le_max_left a v) (ih (max a v))

lemma mem_le_foldl_max (l : List ℕ) : ∀ (a x : ℕ), x ∈ l → x ≤ l.foldl max a := by
  induction l with
  | nil => intro a x hx; cases hx
  | cons v t ih =>
    intro a x hx
    rcases List.mem_cons.mp hx with rfl | hx
    · exact le_trans (le_max_right a x) (le_foldl_max t (max a x))
    · exact ih (max a v) x hx

lemma domLoop_fst (l : List ℕ) : ∀ idx mv mi, (domLoop l idx (mv, mi)).1 = l.foldl max mv := by
  induction l with
  | nil => intro idx mv mi; rfl
  | cons v t ih =>
    intro idx mv mi
    simp only [domLoop, List.foldl_cons]
    split
    · rename_i hlt
      rw [ih, max_eq_right (le_of_lt hlt)]
    · rename_i hge
      rw [ih, max_eq_left (Nat.le_of_not_lt hge)]

lemma domLoop_spec (l : List ℕ) : ∀ idx mv mi : ℕ,
    domLoop l idx (mv, mi) = (mv, mi) ∨
    ∃ k, k < l.length ∧ (domLoop l idx (mv, mi)).2 = idx + k ∧
      l.getD k 0 = (domLoop l idx (mv, mi)).1 ∧ mv < (domLoop l idx (mv, mi)).1 ∧
      ∀ j, j < k → l.getD j 0 < (domLoop l idx (mv, mi)).1 := by
  induction l with
  | nil => intro idx mv mi; exact Or.inl rfl
  | cons v t ih =>
    intro idx mv mi
    by_cases hv : mv < v
    · have hstep : domLoop (v :: t) idx (mv, mi) = domLoop t (idx + 1) (v, idx) := by
        simp only [domLoop, if_pos hv]
      rw [hstep]
      rcases ih (idx + 1) v idx with heq | ⟨k, hk, hidx, hget, hlt, hpre⟩
      · refine Or.inr ⟨0, by simp, ?_, ?_, ?_, fun j hj => absurd hj (Nat.not_lt_zero j)⟩
        · rw [heq]
          simp
        · rw [heq, List.getD_cons_zero]
        · rw [heq]
          exact hv
      · refine Or.inr ⟨k + 1, by simpa using hk, by omega, ?_, lt_trans hv hlt, ?_⟩
        · rw [List.getD_cons_succ]
          exact hget
        · intro j hj
          cases j with
          | zero =>
            rw [List.getD_cons_zero]
            exact hlt
          | succ j =>
            rw [List.getD_cons_succ]
            exact hpre j (by omega)
    · have hstep : domLoop (v :: t) idx (mv, mi) = domLoop t (idx + 1) (mv, mi) := by
        simp only [domLoop, if_neg hv]
      rw [hstep]
      rcases ih (idx + 1) mv mi with heq | ⟨k, hk, hidx, hget, hlt, hpre⟩
      · exact Or.inl heq
      · refine Or.inr ⟨k + 1, by simpa using hk, by omega, ?_, hlt, ?_⟩
        · rw [List.getD_cons_succ]
          exact hget
        · intro j hj
          cases j with
          | zero =>
            rw [List.getD_cons_zero]
            exact lt_of_le_of_lt (Nat.le_of_not_lt hv) hlt
          | succ j =>
            rw [List.getD_cons_succ]
            exact hpre j (by omega)

/-- C7: the dominant frequency is `maxIndex * sampleRate / fftSize` where
`maxIndex` is a stable argmax of the spectrum — it indexes a maximal bin
and every earlier bin is strictly smaller (first occurrence wins); in
particular on a spectrum with equal maxima at indices 3 and 7 the chosen
index is 3. -/
theorem C7_dominant_frequency_argmax (s : List ℕ) (sr : ℚ) (fft : ℕ) (hne : s ≠ []) :
    domIndex s < s.length ∧
    (∀ j, j < s.length → s.getD j 0 ≤ s.getD (domIndex s) 0) ∧
    (∀ j, j < domIndex s → s.getD j 0 < s.getD (domIndex s) 0) ∧
    dominantFrequency s sr fft = domIndex s * sr / fft ∧
    domIndex [0, 1, 2, 9, 4, 5, 6, 9] = 3 := by
  have hfst : (domScan s).1 = s.foldl max 0 := domLoop_fst s 0 0 0
  have hub : ∀ j, j < s.length → s.getD j 0 ≤ (domScan s).1 := by
    intro j hj
    rw [hfst]
    refine mem_le_foldl_max s 0 _ ?_
    rw [List.getD_eq_getElem s 0 hj]
    exact List.getElem_mem hj
  rcases domLoop_spec s 0 0 0 with heq | ⟨k, hk, hidx, hget, _, hpre⟩
  · have hi0 : domIndex s = 0 := by
      unfold domIndex domScan
      rw [heq]
    have hv0 : (domScan s).1 = 0 := by
      unfold domScan
      rw [heq]
    refine ⟨?_, ?_, ?_, rfl, by decide⟩
    · rw [hi0]
      exact List.length_pos.mpr hne
    · intro j hj
      have := hub j hj
      rw [hv0] at this
      omega
    · intro j hj
      rw [hi0] at hj
      exact absurd hj (Nat.not_lt_zero j)
  · have hik : domIndex s = k := by
      unfold domIndex domScan
      omega
    refine ⟨?_, ?_, ?_, rfl, by decide⟩
    · rw [hik]
      exact hk
    · intro j hj
      rw [hik, hget]
      exact hub j hj
    · intro j hj
      rw [hik] at hj
      rw [hik, hget]
      exact hpre j hj

/-- Witness for C7 on the tie spectrum with maxima at indices 3 and 7. -/
theorem C7_dominant_frequency_argmax_witness :
    ([0, 1, 2, 9, 4, 5, 6, 9] : List ℕ) ≠ [] ∧
    domIndex [0, 1, 2, 9, 4, 5, 6, 9] < ([0, 1, 2, 9, 4, 5, 6, 9] : List ℕ).length :=
  ⟨by decide,
   (C7_dominant_frequency_argmax [0, 1, 2, 9, 4, 5, 6, 9] 48000 1024 (by decide)).1⟩

/-- C8: stopping a recording session that captured zero non-empty chunks
leaves the recorded-audio blob null, reports the no-audio-captured error,
clears `isRecording`, and returns the recorder to the inactive state. -/
theorem C8_zero_chunks_no_blob (s : VoiceState)
    (hchunks : s.chunks = []) (hblob : s.recordedAudio = none)
    (hrec : s.recorderState = RecorderState.recording) :
    (stopRecording s).recordedAudio = none ∧
    (stopRecording s).error = some "No audio data was recorded" ∧
    (stopRecording s).isRecording = false ∧
    (stopRecording s).recorderState = RecorderState.inactive := by
  simp [stopRecording, onStopHandler, hrec, hchunks, hblob]

/-- Witness for C8 at a concrete session with zero captured chunks. -/
theorem C8_zero_chunks_no_blob_witness :
    (stopRecording emptyChunksSession).recordedAudio = none ∧
    (stopRecording emptyChunksSession).error = some "No audio data was recorded" := by
  have h := C8_zero_chunks_no_blob emptyChunksSession rfl rfl rfl
  exact ⟨h.1, h.2.1⟩

end VibeSpeak
